import Mathlib

/-!
Verification development for the contentstorage-js SDK.

Shallow embedding of the content-access core:
* `JsonValue` models the JavaScript values that flow through the SDK
  (JSON trees plus `undefined`), together with JS truthiness, `typeof`
  classification, and property access (`key in obj`, `obj[key]`).
* `populateTextWithVariables` embeds src/helpers/populateTextWithVariables.ts.
* `setContentLanguage`, `initContentStorage`, `getText`, `getImage`,
  `getVariation` embed src/lib/contentManagement.ts.
* `handleResponseBody` and the draft-path debounce/cancellation state machine
  embed src/lib/functions/fetchContent.ts.

Console warnings are modelled as values of the `Warning` type, one constructor
per `console.warn` site; `console.log` calls are not observable and are not
modelled. The JS array `length` property is not modelled by `getProp`: no
accessor result depends on it (a `length` segment yields a number, which every
accessor rejects the same way it rejects a missing key).
-/

namespace ContentStorage

/-- JavaScript runtime values reachable in the SDK: JSON values plus
`undefined`. Objects are association lists of fields in insertion order. -/
inductive JsonValue where
  | undefined : JsonValue
  | null : JsonValue
  | bool : Bool → JsonValue
  | num : Int → JsonValue
  | str : String → JsonValue
  | arr : List JsonValue → JsonValue
  | obj : List (String × JsonValue) → JsonValue

/-- JS truthiness (`if (x)`, `x && y`). `NaN` does not arise in this model. -/
def truthy : JsonValue → Bool
  | .undefined => false
  | .null => false
  | .bool b => b
  | .num n => n ≠ 0
  | .str s => s ≠ ""
  | .arr _ => true
  | .obj _ => true

/-- `typeof x === 'object'`: true for `null`, arrays and objects. -/
def typeofIsObject : JsonValue → Bool
  | .null => true
  | .arr _ => true
  | .obj _ => true
  | _ => false

/-- `typeof x === 'string'`. -/
def typeofIsString : JsonValue → Bool
  | .str _ => true
  | _ => false

/-- Parses a canonical array-index property name: one or more decimal digits
with no leading zero (except `"0"` itself). `some n` exactly when the string
is the decimal rendering of `n`. -/
def parseIndex (s : String) : Option Nat :=
  match s.toList with
  | [] => none
  | c :: cs =>
    if (c :: cs).all Char.isDigit && (c ≠ '0' || cs = []) then
      some ((c :: cs).foldl (fun acc d => acc * 10 + (d.toNat - '0'.toNat)) 0)
    else none

/-- Property read `v[k]` combined with the `k in v` test: `some` exactly when
`k in v` holds. Objects look keys up in order; arrays expose their canonical
index properties (the `length` property is not modelled, see the header). -/
def getProp : JsonValue → String → Option JsonValue
  | .obj fields, k =>
    match fields.find? (fun f => f.1 = k) with
    | some f => some f.2
    | none => none
  | .arr xs, k =>
    match parseIndex k with
    | some n => xs.get? n
    | none => none
  | _, _ => none

/-- `k in v`. -/
def hasProp (v : JsonValue) (k : String) : Bool :=
  (getProp v k).isSome

/-- Object spread with one override, `{...v, k: newVal}`: replaces the value of
an existing field in place (JS keeps the original key position). Only applied
to objects that already carry the key. -/
def setProp (v : JsonValue) (k : String) (newVal : JsonValue) : JsonValue :=
  match v with
  | .obj fields => .obj (fields.map (fun f => if f.1 = k then (f.1, newVal) else f))
  | other => other

/-- Values supplied in a `variables` record (`Record<string, any>` restricted
to the primitive payloads the SDK stringifies). -/
inductive JsVal where
  | str : String → JsVal
  | num : Int → JsVal
  | bool : Bool → JsVal
deriving DecidableEq

/-- JS `String(value)` on a `JsVal`. -/
def jsString : JsVal → String
  | .str s => s
  | .num n => toString n
  | .bool b => cond b "true" "false"

/-- A `variables` record: association list in insertion order. -/
abbrev VarMap : Type := List (String × JsVal)

/-- `Object.prototype.hasOwnProperty.call(variables, name)` plus the read:
first binding for `name`, if any. -/
def varLookup (vars : VarMap) (name : String) : Option JsVal :=
  match List.find? (fun p => p.1 = name) vars with
  | some p => some p.2
  | none => none

/-- One constructor per `console.warn` site in the source. -/
inductive Warning where
  | missingVariable (variableName textKey : String)
  | textNotLoaded (contentId : String)
  | textPathNotFound (contentId : String)
  | textNotAString (contentId : String)
  | imageNotLoaded (contentId : String)
  | imagePathNotFound (contentId : String)
  | imageNotValidImage (contentId : String)
  | variationNotLoaded (contentId : String)
  | variationPathNotFound (contentId : String)
  | variationValueNotString (contentId variationKey : String)
  | variationFallingBackToDefault (contentId variationKey : String)
  | variationDefaultNotString (contentId : String)
  | variationNeitherFound (contentId : String)
  | variationNotValidObject (contentId : String)
deriving DecidableEq

/-- `\w` of the regex `/\{(\w+)}/g`: ASCII letters, digits, underscore. -/
def wordChar (c : Char) : Bool :=
  c.isAlpha || c.isDigit || c = '_'

/-- The global replace of `/\{(\w+)}/g` with the source's replacement callback,
run as a left-to-right scan. The first argument is the scan state: `none`
outside a candidate match, `some w` after an unclosed `\x7b` followed by the
word characters `w`. A completed match `\x7bname\x7d` becomes
`String(vars[name])` when the record has the key, otherwise the placeholder is
kept and a warning is logged; characters outside matches pass through. A
candidate that cannot be completed (`\x7b` not followed by one or more word
characters and `\x7d`) is emitted verbatim and the scan resumes at the
offending character, matching the regex engine's behaviour. -/
def replaceVars (vars : VarMap) (textKey : String) : Option (List Char) → List Char → (List Char × List Warning)
  | none, [] => ([], [])
  | none, c :: cs =>
    if c = '{' then replaceVars vars textKey (some []) cs
    else
      let (out, ws) := replaceVars vars textKey none cs
      (c :: out, ws)
  | some w, [] => ('{' :: w, [])
  | some w, c :: cs =>
    if wordChar c then replaceVars vars textKey (some (w ++ [c])) cs
    else if c = '}' then
      match w with
      | [] =>
        let (out, ws) := replaceVars vars textKey none cs
        ('{' :: '}' :: out, ws)
      | _ =>
        let name : String := ⟨w⟩
        let (out, ws) := replaceVars vars textKey none cs
        match varLookup vars name with
        | some v => ((jsString v).toList ++ out, ws)
        | none => ('{' :: (w ++ '}' :: out), Warning.missingVariable name textKey :: ws)
    else if c = '{' then
      let (out, ws) := replaceVars vars textKey (some []) cs
      ('{' :: (w ++ out), ws)
    else
      let (out, ws) := replaceVars vars textKey none cs
      ('{' :: (w ++ c :: out), ws)

/-- Embeds `populateTextWithVariables` from
src/helpers/populateTextWithVariables.ts, together with its warning log. -/
def populateTextWithVariables (text : String) (vars : VarMap) (textKey : String) : String × List Warning :=
  let (out, ws) := replaceVars vars textKey none text.toList
  (⟨out⟩, ws)

/-! ## Content Store (src/lib/contentManagement.ts) -/

/-- The module-level mutable state: `activeContent` (initially `null`) and
`window.currentLanguageCode` (initially `null`). -/
structure StoreState where
  activeContent : JsonValue
  currentLanguageCode : Option String

/-- State at module load: `activeContent = null`, `currentLanguageCode = null`. -/
def initialStore : StoreState := ⟨.null, none⟩

/-- The body of the `try` block in `setContentLanguage` (lines 45-52): two
assignments and a `console.log`, none of which can throw. -/
def setContentLanguageTryBody (languageCode : String) (contentJson : JsonValue) (_st : StoreState) : Except String StoreState :=
  .ok { activeContent := contentJson, currentLanguageCode := some languageCode }

/-- Embeds `setContentLanguage`: validates `contentJson` is a truthy value of
`typeof 'object'`, throwing otherwise with the state untouched; then runs the
`try` body, resetting the store to empty if that body were to throw (the
`catch` only logs, so the function still returns normally there). -/
def setContentLanguage (languageCode : String) (contentJson : JsonValue) (st : StoreState) : Except String Unit × StoreState :=
  if !(truthy contentJson) || !(typeofIsObject contentJson) then
    (.error "[Contentstorage] Invalid contentJson might be provided which caused setContentLanguage to fail.", st)
  else
    match setContentLanguageTryBody languageCode contentJson st with
    | .ok st2 => (.ok (), st2)
    | .error _ => (.ok (), { activeContent := .null, currentLanguageCode := none })

/-- The argument to `initContentStorage`. `contentKey = none` models an
absent/undefined field; `languageCodes = none` models any value failing
`Array.isArray`. A missing `config` object itself is not modelled (the source
would crash reading `config.contentKey` first). -/
structure InitConfig where
  contentKey : Option String
  languageCodes : Option (List String)

/-- JS truthiness of the optional `contentKey` field (`!config.contentKey`). -/
def optStrTruthy : Option String → Bool
  | none => false
  | some s => s ≠ ""

/-- Embeds `initContentStorage` (lines 62-87): on success returns the stored
`appConfig`. -/
def initContentStorage (config : InitConfig) : Except String (String × List String) :=
  if !(optStrTruthy config.contentKey) || config.languageCodes.isNone then
    if !(optStrTruthy config.contentKey) then
      .error "[Contentstorage] No contentKey provided in initContentStorage function."
    else if config.languageCodes.isNone then
      .error "[Contentstorage] No languageCodes provided in initContentStorage function."
    else
      .error "[Contentstorage] Invalid config."
  else
    .ok (config.contentKey.getD "", config.languageCodes.getD [])

/-! ## Path Resolver (src/lib/contentManagement.ts) -/

/-- Property read `v[k]` (`undefined` when `k in v` fails). -/
def propRead (v : JsonValue) (k : String) : JsonValue :=
  (getProp v k).getD .undefined

/-- `v[k] === s` for a string literal `s`. -/
def propIsStr (v : JsonValue) (k : String) (s : String) : Bool :=
  match getProp v k with
  | some (.str t) => t = s
  | _ => false

def isNull : JsonValue → Bool
  | .null => true
  | _ => false

def isUndefined : JsonValue → Bool
  | .undefined => true
  | _ => false

/-- `contentId.split('.')` on the character list: splitting on every dot, with
`""` split to `[""]` and empty segments kept, as in JS. -/
def splitDot : List Char → List String
  | [] => [""]
  | c :: cs =>
    if c = '.' then "" :: splitDot cs
    else
      match splitDot cs with
      | s :: rest => (⟨c :: s.toList⟩ : String) :: rest
      | [] => [⟨[c]⟩]

/-- `(contentId as string).split('.')`. -/
def splitPath (contentId : String) : List String :=
  splitDot contentId.toList

/-- The shared traversal loop of the three accessors (e.g. getText lines
119-127): descend key by key while the current node is truthy, of
`typeof 'object'`, and has the key. -/
def walk : List String → JsonValue → Option JsonValue
  | [], current => some current
  | key :: keys, current =>
    if truthy current && typeofIsObject current && hasProp current key then
      walk keys (propRead current key)
    else none

structure GetTextReturn where
  contentId : String
  text : String
deriving DecidableEq

/-- Embeds `getText` (lines 99-160), paired with its warning log. The
live-editor memory map (lines 130-142) is write-only instrumentation and is
not modelled. -/
def getText (store : StoreState) (contentId : String) (vars : Option VarMap) : GetTextReturn × List Warning :=
  let defaultVal : GetTextReturn := ⟨contentId, ""⟩
  if !(truthy store.activeContent) then
    (defaultVal, [.textNotLoaded contentId])
  else
    match walk (splitPath contentId) store.activeContent with
    | none => (defaultVal, [.textPathNotFound contentId])
    | some current =>
      match current with
      | .str s =>
        match vars with
        | none => (⟨contentId, s⟩, [])
        | some vs =>
          if vs.isEmpty then (⟨contentId, s⟩, [])
          else
            let (t, ws) := populateTextWithVariables s vs contentId
            (⟨contentId, t⟩, ws)
      | _ => (defaultVal, [.textNotAString contentId])

structure GetImageReturn where
  contentId : String
  data : JsonValue

/-- The zero-value image payload `{ url: '', altText: '', contentstorage_type:
'image' }`. -/
def imageDefaultData : JsonValue :=
  .obj [("url", .str ""), ("altText", .str ""), ("contentstorage_type", .str "image")]

/-- `current && typeof current === 'object' && current.contentstorage_type ===
'image' && typeof current.url === 'string'` (lines 192-197). -/
def isValidImageNode (v : JsonValue) : Bool :=
  truthy v && typeofIsObject v && propIsStr v "contentstorage_type" "image"
    && typeofIsString (propRead v "url")

/-- The CDN prefix applied to stored image URLs (line 199). -/
def imageCdnBase : String := "https://cdn.contentstorage.app/"

/-- Embeds `getImage` (lines 162-225). On success the stored node is returned
with its `url` rewritten to the absolute CDN URL (`{...currentData, url: key}`). -/
def getImage (store : StoreState) (contentId : String) : GetImageReturn × List Warning :=
  let defaultVal : GetImageReturn := ⟨contentId, imageDefaultData⟩
  if !(truthy store.activeContent) then
    (defaultVal, [.imageNotLoaded contentId])
  else
    match walk (splitPath contentId) store.activeContent with
    | none => (defaultVal, [.imagePathNotFound contentId])
    | some current =>
      if isValidImageNode current then
        match propRead current "url" with
        | .str u =>
          let key := imageCdnBase ++ u
          (⟨contentId, setProp current "url" (.str key)⟩, [])
        | _ => (defaultVal, [.imageNotValidImage contentId])
      else (defaultVal, [.imageNotValidImage contentId])

structure GetVariationReturn where
  contentId : String
  text : String
deriving DecidableEq

/-- `current && typeof current === 'object' && current.contentstorage_type ===
'variation' && typeof current.data === 'object' && current.data !== null`
(lines 258-264). -/
def isValidVariationNode (v : JsonValue) : Bool :=
  truthy v && typeofIsObject v && propIsStr v "contentstorage_type" "variation"
    && typeofIsObject (propRead v "data") && !(isNull (propRead v "data"))

/-- Embeds the tail of `getVariation` (lines 307-352): the `'default'`
fallback — reached only when `typeof variationKey === 'string'`, i.e. a key was
supplied — and the final warning-plus-empty-result. `ws` carries warnings
already logged by the specific-key branch. -/
def variationDefaultStep (contentId : String) (data : JsonValue) (variationKey : Option String) (ws : List Warning) : GetVariationReturn × List Warning :=
  match variationKey with
  | some vk =>
    if hasProp data "default" then
      match propRead data "default" with
      | .str d =>
        let ws2 := if vk ≠ "" ∧ vk ≠ "default" then ws ++ [.variationFallingBackToDefault contentId vk] else ws
        (⟨contentId, d⟩, ws2)
      | _ =>
        (⟨contentId, ""⟩, ws ++ [.variationDefaultNotString contentId, .variationNeitherFound contentId])
    else
      (⟨contentId, ""⟩, ws ++ [.variationNeitherFound contentId])
  | none =>
    (⟨contentId, ""⟩, ws ++ [.variationNeitherFound contentId])

/-- Embeds `getVariation` (lines 227-353), paired with its warning log. -/
def getVariation (store : StoreState) (contentId : String) (variationKey : Option String) (vars : Option VarMap) : GetVariationReturn × List Warning :=
  let defaultVal : GetVariationReturn := ⟨contentId, ""⟩
  if !(truthy store.activeContent) then
    (defaultVal, [.variationNotLoaded contentId])
  else
    match walk (splitPath contentId) store.activeContent with
    | none => (defaultVal, [.variationPathNotFound contentId])
    | some current =>
      if isValidVariationNode current then
        let data := propRead current "data"
        match variationKey with
        | some vk =>
          if vk ≠ "" ∧ hasProp data vk then
            match propRead data vk with
            | .str s =>
              match vars with
              | none => (⟨contentId, s⟩, [])
              | some vs =>
                if vs.isEmpty then (⟨contentId, s⟩, [])
                else
                  let (t, ws) := populateTextWithVariables s vs contentId
                  (⟨contentId, t⟩, ws)
            | _ => variationDefaultStep contentId data variationKey [.variationValueNotString contentId vk]
          else variationDefaultStep contentId data variationKey []
        | none => variationDefaultStep contentId data variationKey []
      else (defaultVal, [.variationNotValidObject contentId])

/-! ## Fetch Coordinator (src/lib/functions/fetchContent.ts) -/

/-- The errors thrown inside the fetch `try` blocks when a response body fails
validation. -/
inductive FetchError where
  /-- "No data received from ..." (lines 91-95 and 158-162). -/
  | emptyResponse : FetchError
  /-- "Expected a single JSON object ... but received type ..." (lines 98-102
  and 166-170). -/
  | unexpectedShape : FetchError
  /-- The error thrown by `setContentLanguage` (line 40). -/
  | invalidContent : FetchError
deriving DecidableEq

/-- Embeds the shared response handling (lines 84-109 on the draft path, lines
151-177 on the CDN path): envelope unwrap of a `data` field (draft only),
null/undefined check, object-shape check, then `setContentLanguage`. -/
def handleResponseBody (usePendingChanges : Bool) (languageToFetch : String) (body : JsonValue) (st : StoreState) : Except FetchError StoreState :=
  let jsonData :=
    if usePendingChanges && truthy body && typeofIsObject body && hasProp body "data" then
      propRead body "data"
    else body
  if isUndefined jsonData || isNull jsonData then
    .error .emptyResponse
  else if !(typeofIsObject jsonData) then
    .error .unexpectedShape
  else
    match setContentLanguage languageToFetch jsonData st with
    | (.ok _, st2) => .ok st2
    | (.error _, _) => .error .invalidContent

/-- How the draft-path promise settles once its network call returned a body:
a validation error is rethrown out of the `try`, logged, and `reject`ed
(line 138), otherwise the promise resolves (line 113). -/
inductive DraftOutcome where
  | resolved : DraftOutcome
  | rejected : FetchError → DraftOutcome
deriving DecidableEq

/-- Draft path, successful network response: errors reject the returned
promise and leave the store untouched. -/
def draftResponseSettle (languageToFetch : String) (body : JsonValue) (st : StoreState) : DraftOutcome × StoreState :=
  match handleResponseBody true languageToFetch body st with
  | .ok st2 => (.resolved, st2)
  | .error e => (.rejected e, st)

/-- CDN path, successful network response: the `catch` (lines 178-193) only
logs, so the promise always resolves; `.1` is the logged error, if any. -/
def cdnResponseSettle (languageToFetch : String) (body : JsonValue) (st : StoreState) : Option FetchError × StoreState :=
  match handleResponseBody false languageToFetch body st with
  | .ok st2 => (none, st2)
  | .error e => (some e, st)

/-! ### Draft-path debounce/cancellation state machine

One instance of this machine models the `debounceTimers` and
`cancelTokenSources` entries of a single request key `(language, contentKey)`,
together with the promises returned by the draft-path invocations for that
key. Invocations are numbered in order; `promises` records each invocation's
promise status, `issuedCalls` logs the invocations whose debounce timer fired
and whose network call was therefore issued. -/

inductive PromiseStatus where
  | pending : PromiseStatus
  | resolved : PromiseStatus
  | rejected : PromiseStatus
deriving DecidableEq

structure DraftKeyState where
  /-- Number of the next invocation. -/
  nextId : Nat
  /-- `debounceTimers.get(requestKey)`: the invocation whose timer is armed. -/
  timer : Option Nat
  /-- `cancelTokenSources.get(requestKey)`: the invocation whose network call
  is in flight and not cancelled. -/
  inflight : Option Nat
  /-- Invocations whose in-flight call was cancelled and whose promise has not
  yet settled through the `isCancel` branch (lines 119-123). -/
  cancelled : List Nat
  promises : List (Nat × PromiseStatus)
  issuedCalls : List Nat
  store : StoreState

def setStatus (i : Nat) (s : PromiseStatus) (ps : List (Nat × PromiseStatus)) : List (Nat × PromiseStatus) :=
  ps.map (fun p => if p.1 = i then (i, s) else p)

def statusIn (ps : List (Nat × PromiseStatus)) (i : Nat) : Option PromiseStatus :=
  (ps.find? (fun p => p.1 = i)).map Prod.snd

def statusOf (s : DraftKeyState) (i : Nat) : Option PromiseStatus :=
  statusIn s.promises i

/-- The cooperatively scheduled events that can touch one request key. -/
inductive DraftEvent where
  /-- A new draft-path `fetchContent` invocation for the key (lines 54-143). -/
  | invoke : DraftEvent
  /-- An armed debounce timer fires (line 73): the network call is issued and
  its cancel source is tracked. -/
  | timerFire : DraftEvent
  /-- The in-flight network call returns a body (line 83 onwards). -/
  | netReturn : JsonValue → DraftEvent
  /-- The in-flight network call fails with a non-cancel error. -/
  | netFail : DraftEvent
  /-- A cancelled call's rejection reaches the `catch`; `axios.isCancel` holds
  and the promise resolves with no result (lines 119-123). -/
  | cancelSettle : Nat → DraftEvent

def draftStep (lang : String) (s : DraftKeyState) : DraftEvent → DraftKeyState
  | .invoke =>
    -- lines 57-62: cancel any in-flight call for the key; lines 64-69: clear
    -- any pending timer (its invocation's executor never runs again); lines
    -- 72-143: create the promise and arm a new timer.
    let s1 :=
      match s.inflight with
      | some j => { s with inflight := none, cancelled := s.cancelled ++ [j] }
      | none => s
    { s1 with
      timer := some s1.nextId,
      promises := s1.promises ++ [(s1.nextId, .pending)],
      nextId := s1.nextId + 1 }
  | .timerFire =>
    match s.timer with
    | some i =>
      { s with timer := none, inflight := some i, issuedCalls := s.issuedCalls ++ [i] }
    | none => s
  | .netReturn body =>
    match s.inflight with
    | some i =>
      match draftResponseSettle lang body s.store with
      | (.resolved, st2) =>
        { s with inflight := none, store := st2, promises := setStatus i .resolved s.promises }
      | (.rejected _, st2) =>
        { s with inflight := none, store := st2, promises := setStatus i .rejected s.promises }
    | none => s
  | .netFail =>
    match s.inflight with
    | some i => { s with inflight := none, promises := setStatus i .rejected s.promises }
    | none => s
  | .cancelSettle i =>
    if i ∈ s.cancelled then
      { s with cancelled := s.cancelled.filter (fun j => j ≠ i), promises := setStatus i .resolved s.promises }
    else s

def runDraft (lang : String) (evts : List DraftEvent) (s : DraftKeyState) : DraftKeyState :=
  evts.foldl (draftStep lang) s

/-- Fresh registry state for a key: no timer, no in-flight call, no promises. -/
def draftInit (st0 : StoreState) : DraftKeyState :=
  ⟨0, none, none, [], [], [], st0⟩

/-! ## Helper lemmas -/

theorem replaceVars_passthrough (vars : VarMap) (k : String) :
    ∀ (pre rest : List Char), '{' ∉ pre →
    replaceVars vars k none (pre ++ rest) =
      (pre ++ (replaceVars vars k none rest).1, (replaceVars vars k none rest).2) := by
  intro pre
  induction pre with
  | nil => intro rest _; simp
  | cons c pre ih =>
    intro rest hmem
    have hc : ¬ (c = '{') := by
      intro h
      exact hmem (by simp [h])
    have hm : '{' ∉ pre := fun h => hmem (List.mem_cons_of_mem _ h)
    have hre := ih rest hm
    simp only [List.cons_append, replaceVars, if_neg hc, List.append_eq]
    rw [hre]

theorem replaceVars_word (vars : VarMap) (k : String) (post : List Char) :
    ∀ (name w : List Char), (∀ c ∈ name, wordChar c = true) → w ++ name ≠ [] →
    replaceVars vars k (some w) (name ++ '}' :: post) =
      (match varLookup vars ⟨w ++ name⟩ with
       | some v =>
         ((jsString v).toList ++ (replaceVars vars k none post).1,
          (replaceVars vars k none post).2)
       | none =>
         ('{' :: ((w ++ name) ++ '}' :: (replaceVars vars k none post).1),
          Warning.missingVariable ⟨w ++ name⟩ k :: (replaceVars vars k none post).2)) := by
  intro name
  induction name with
  | nil =>
    intro w _ hne
    match w with
    | [] => simp at hne
    | c0 :: w0 =>
      simp only [List.nil_append, List.append_nil]
      have hword : wordChar '}' = false := by decide
      simp only [replaceVars, hword, Bool.false_eq_true, if_false, if_pos rfl]
      match h : varLookup vars ⟨c0 :: w0⟩ with
      | some v => simp [h]
      | none => simp [h]
  | cons c name ih =>
    intro w hword hne
    have hc : wordChar c = true := hword c (by simp)
    have hrest : ∀ d ∈ name, wordChar d = true := fun d hd => hword d (by simp [hd])
    have hne2 : (w ++ [c]) ++ name ≠ [] := by simp
    have hih := ih (w ++ [c]) hrest hne2
    simp only [List.cons_append, replaceVars, hc, if_true, List.append_eq]
    rw [hih]
    simp [List.append_assoc]

theorem statusIn_setStatus_ne (i j : Nat) (st : PromiseStatus) (hne : ¬ (j = i)) :
    ∀ ps : List (Nat × PromiseStatus),
    ((setStatus i st ps).find? (fun p => p.1 = j)) = (ps.find? (fun p => p.1 = j)) := by
  intro ps
  induction ps with
  | nil => simp [setStatus]
  | cons p ps ih =>
    by_cases hp : p.1 = i
    · have hpj : ¬ (p.1 = j) := by
        intro h
        exact hne (by rw [← h, hp])
      have h1 : ¬ (i = j) := fun h => hne h.symm
      simp only [setStatus, List.map_cons, if_pos hp, List.find?_cons] at ih ⊢
      simp only [h1, hpj, decide_eq_false, Bool.false_eq_true, if_false]
      exact ih
    · simp only [setStatus, List.map_cons, if_neg hp, List.find?_cons] at ih ⊢
      by_cases hpj : p.1 = j
      · simp [hpj]
      · simp only [hpj, decide_eq_false, Bool.false_eq_true, if_false]
        exact ih

theorem statusIn_setStatus (i j : Nat) (st : PromiseStatus) (hne : ¬ (j = i))
    (ps : List (Nat × PromiseStatus)) :
    statusIn (setStatus i st ps) j = statusIn ps j := by
  unfold statusIn
  rw [statusIn_setStatus_ne i j st hne]

theorem statusIn_append_pending (j : Nat) (ps qs : List (Nat × PromiseStatus)) (v : PromiseStatus)
    (h : statusIn ps j = some v) :
    statusIn (ps ++ qs) j = some v := by
  unfold statusIn at h ⊢
  match hf : ps.find? (fun p => p.1 = j) with
  | some p =>
    rw [List.find?_append, hf]
    rw [hf] at h
    exact h
  | none =>
    rw [hf] at h
    simp at h

/-- The part of the registry state that can never again touch invocation `0`'s
promise once it has been superseded while still in its debounce window. -/
def avoidsFirst (s : DraftKeyState) : Prop :=
  1 ≤ s.nextId ∧ s.timer ≠ some 0 ∧ s.inflight ≠ some 0 ∧ 0 ∉ s.cancelled
    ∧ 0 ∉ s.issuedCalls ∧ statusOf s 0 = some .pending

theorem draftStep_avoidsFirst (lang : String) (s : DraftKeyState) (ev : DraftEvent)
    (h : avoidsFirst s) : avoidsFirst (draftStep lang s ev) := by
  obtain ⟨h1, h2, h3, h4, h5, h6⟩ := h
  cases ev with
  | invoke =>
    cases hin : s.inflight with
    | none =>
      refine ⟨?_, ?_, ?_, ?_, ?_, ?_⟩ <;>
        simp only [draftStep, hin, avoidsFirst, statusOf] at *
      · omega
      · intro heq
        have hx : s.nextId = 0 := Option.some.inj heq
        omega
      · simp [hin]
      · exact h4
      · exact h5
      · exact statusIn_append_pending 0 s.promises _ _ h6
    | some j =>
      have hj : ¬ (j = 0) := by
        intro hj0
        exact h3 (by rw [hin, hj0])
      refine ⟨?_, ?_, ?_, ?_, ?_, ?_⟩ <;>
        simp only [draftStep, hin, avoidsFirst, statusOf] at *
      · omega
      · intro heq
        have : s.nextId = 0 := by exact Option.some.inj heq
        omega
      · simp
      · simp only [List.mem_append, List.mem_singleton]
        rintro (hc | hc)
        · exact h4 hc
        · exact hj hc.symm
      · exact h5
      · exact statusIn_append_pending 0 s.promises _ _ h6
  | timerFire =>
    cases ht : s.timer with
    | none =>
      have hs : draftStep lang s .timerFire = s := by simp [draftStep, ht]
      rw [hs]
      exact ⟨h1, h2, h3, h4, h5, h6⟩
    | some i =>
      have hi : ¬ (i = 0) := by
        intro hi0
        exact h2 (by rw [ht, hi0])
      refine ⟨?_, ?_, ?_, ?_, ?_, ?_⟩ <;>
        simp only [draftStep, ht, avoidsFirst, statusOf] at *
      · omega
      · simp
      · intro heq
        exact hi (Option.some.inj heq)
      · exact h4
      · simp only [List.mem_append, List.mem_singleton]
        rintro (hc | hc)
        · exact h5 hc
        · exact hi hc.symm
      · exact h6
  | netReturn body =>
    cases hin : s.inflight with
    | none =>
      have hs : draftStep lang s (.netReturn body) = s := by simp [draftStep, hin]
      rw [hs]
      exact ⟨h1, h2, h3, h4, h5, h6⟩
    | some i =>
      have hi : ¬ ((0 : Nat) = i) := by
        intro hi0
        exact h3 (by rw [hin, ← hi0])
      cases hset : draftResponseSettle lang body s.store with
      | mk outcome st2 =>
        cases outcome with
        | resolved =>
          refine ⟨?_, ?_, ?_, ?_, ?_, ?_⟩ <;>
            simp only [draftStep, hin, hset, avoidsFirst, statusOf] at *
          · omega
          · exact h2
          · simp
          · exact h4
          · exact h5
          · rw [statusIn_setStatus i 0 _ hi]
            exact h6
        | rejected e =>
          refine ⟨?_, ?_, ?_, ?_, ?_, ?_⟩ <;>
            simp only [draftStep, hin, hset, avoidsFirst, statusOf] at *
          · omega
          · exact h2
          · simp
          · exact h4
          · exact h5
          · rw [statusIn_setStatus i 0 _ hi]
            exact h6
  | netFail =>
    cases hin : s.inflight with
    | none =>
      have hs : draftStep lang s .netFail = s := by simp [draftStep, hin]
      rw [hs]
      exact ⟨h1, h2, h3, h4, h5, h6⟩
    | some i =>
      have hi : ¬ ((0 : Nat) = i) := by
        intro hi0
        exact h3 (by rw [hin, ← hi0])
      refine ⟨?_, ?_, ?_, ?_, ?_, ?_⟩ <;>
        simp only [draftStep, hin, avoidsFirst, statusOf] at *
      · omega
      · exact h2
      · simp
      · exact h4
      · exact h5
      · rw [statusIn_setStatus i 0 _ hi]
        exact h6
  | cancelSettle i =>
    by_cases hc : i ∈ s.cancelled
    · have hi : ¬ ((0 : Nat) = i) := by
        intro hi0
        exact h4 (hi0 ▸ hc)
      refine ⟨?_, ?_, ?_, ?_, ?_, ?_⟩ <;>
        simp only [draftStep, if_pos hc, avoidsFirst, statusOf] at *
      · omega
      · exact h2
      · exact h3
      · intro hmem
        exact h4 (List.mem_of_mem_filter hmem)
      · exact h5
      · rw [statusIn_setStatus i 0 _ hi]
        exact h6
    · have hs : draftStep lang s (.cancelSettle i) = s := by simp [draftStep, if_neg hc]
      rw [hs]
      exact ⟨h1, h2, h3, h4, h5, h6⟩

theorem runDraft_avoidsFirst (lang : String) (evts : List DraftEvent) (s : DraftKeyState)
    (h : avoidsFirst s) : avoidsFirst (runDraft lang evts s) := by
  induction evts generalizing s with
  | nil => exact h
  | cons ev evts ih =>
    exact ih _ (draftStep_avoidsFirst lang s ev h)

theorem avoidsFirst_after_two_invokes (lang : String) (st0 : StoreState) :
    avoidsFirst (runDraft lang [.invoke, .invoke] (draftInit st0)) := by
  refine ⟨?_, ?_, ?_, ?_, ?_, ?_⟩ <;>
    simp [runDraft, draftInit, draftStep, avoidsFirst, statusOf, statusIn]

/-- A loaded Content Tree with one Variation Node at path `"A"` whose `data`
carries only the `"default"` variation, bound to `"D"`. -/
def demoVariationStore : StoreState :=
  ⟨.obj [("A", .obj [("contentstorage_type", .str "variation"),
                     ("data", .obj [("default", .str "D")])])], some "EN"⟩

/-! ## Claims -/

/-- C1: the claim states that `getVariation(path)` with no `variationKey`
argument falls back to the `"default"` variation. The code disagrees with the
claim and with its own comment ("If specific variationKey is not found **or
not provided**, try to return the 'default' variation"): the fallback guard
(line 308) also requires `typeof variationKey === 'string'`, so an omitted key
skips the fallback and yields the empty default result. This theorem evaluates
the embedded `getVariation` at the failing input (first conjunct) and
contrasts it with a supplied-but-missing key, where the fallback does fire
(second conjunct). -/
theorem getVariation_omitted_key_skips_default :
    getVariation demoVariationStore "A" none none
      = (⟨"A", ""⟩, [.variationNeitherFound "A"]) ∧
    getVariation demoVariationStore "A" (some "missing") none
      = (⟨"A", "D"⟩, [.variationFallingBackToDefault "A" "missing"]) :=
  ⟨rfl, rfl⟩

/-- C2: the claim states that every non-object body — "including primitives
and array-like values" — fails with `UnexpectedShapeError` (draft path:
rejection; CDN path: logged and swallowed) without updating the store. The
code's `typeof jsonData !== 'object'` check (lines 98, 166) lets arrays
through, contradicting the claim and the code's own comment ("Validate that
jsonData is a single, non-null JSON object (not an array)"): an array body is
handed to `setContentLanguage` and stored, and the draft promise resolves
(conjuncts 1-2). For primitives the claim's behaviour does hold
(conjuncts 3-4). -/
theorem fetchContent_array_body_accepted :
    draftResponseSettle "EN" (.arr [.str "v"]) initialStore
      = (.resolved, ⟨.arr [.str "v"], some "EN"⟩) ∧
    cdnResponseSettle "EN" (.arr [.str "v"]) initialStore
      = (none, ⟨.arr [.str "v"], some "EN"⟩) ∧
    draftResponseSettle "EN" (.str "primitive") initialStore
      = (.rejected .unexpectedShape, initialStore) ∧
    cdnResponseSettle "EN" (.str "primitive") initialStore
      = (some .unexpectedShape, initialStore) :=
  ⟨rfl, rfl, rfl, rfl⟩

/-- C5 counterexample: the claim states that `initContentStorage` throws when
`languageCodes` is an empty sequence. It does not: `Array.isArray([])` holds,
so a config with a non-empty `contentKey` and an empty `languageCodes` array
is accepted and stored. -/
theorem initContentStorage_empty_languageCodes_accepted :
    initContentStorage ⟨some "k", some []⟩ = .ok ("k", []) :=
  rfl

/-- C5 amended: `initContentStorage` throws an error naming `contentKey` when
`contentKey` is missing or empty, and an error naming `languageCodes` when
`languageCodes` fails `Array.isArray`; every config with a truthy `contentKey`
and an array `languageCodes` — the empty array included — is accepted, with
the config stored as given. -/
theorem initContentStorage_field_checks (config : InitConfig) :
    (optStrTruthy config.contentKey = false →
      initContentStorage config
        = .error "[Contentstorage] No contentKey provided in initContentStorage function.") ∧
    (optStrTruthy config.contentKey = true → config.languageCodes = none →
      initContentStorage config
        = .error "[Contentstorage] No languageCodes provided in initContentStorage function.") ∧
    (∀ key codes, config = ⟨some key, some codes⟩ → key ≠ "" →
      initContentStorage config = .ok (key, codes)) := by
  refine ⟨?_, ?_, ?_⟩
  · intro h
    simp [initContentStorage, h]
  · intro h1 h2
    simp [initContentStorage, h1, h2]
  · rintro key codes rfl hk
    simp [initContentStorage, optStrTruthy, hk]

theorem initContentStorage_field_checks_witness :
    optStrTruthy (InitConfig.mk none (some ["EN"])).contentKey = false ∧
    initContentStorage ⟨none, some ["EN"]⟩
      = .error "[Contentstorage] No contentKey provided in initContentStorage function." ∧
    initContentStorage ⟨some "key", some ["EN", "FR"]⟩ = .ok ("key", ["EN", "FR"]) :=
  ⟨rfl, (initContentStorage_field_checks ⟨none, some ["EN"]⟩).1 rfl,
   (initContentStorage_field_checks ⟨some "key", some ["EN", "FR"]⟩).2.2 "key" ["EN", "FR"] rfl
     (by decide)⟩

/-- C6: for every loaded tree and dot-notation path whose traversal ends at a
string leaf, `getText(path)` with no variables returns exactly that string and
echoes the path as `contentId` (with nothing logged). -/
theorem getText_string_leaf (st : StoreState) (path : String) (s : String)
    (h1 : truthy st.activeContent = true)
    (h2 : walk (splitPath path) st.activeContent = some (.str s)) :
    getText st path none = (⟨path, s⟩, []) := by
  simp [getText, h1, h2]

theorem getText_string_leaf_witness :
    truthy (StoreState.mk (.obj [("HomePage", .obj [("Login", .str "Sign in")])]) none).activeContent = true ∧
    walk (splitPath "HomePage.Login")
      (StoreState.mk (.obj [("HomePage", .obj [("Login", .str "Sign in")])]) none).activeContent
      = some (.str "Sign in") ∧
    getText ⟨.obj [("HomePage", .obj [("Login", .str "Sign in")])], none⟩ "HomePage.Login" none
      = (⟨"HomePage.Login", "Sign in"⟩, []) :=
  ⟨rfl, rfl, getText_string_leaf _ "HomePage.Login" "Sign in" rfl rfl⟩

/-- C8: `setContentLanguage` validates that `contentJson` is a non-null object
(in JS terms: truthy and of `typeof 'object'`). On every invalid input it
throws and leaves the previous state untouched; on every valid input it
replaces the active content with the supplied object and records the supplied
language code. -/
theorem setContentLanguage_validation (lang : String) (j : JsonValue) (st : StoreState) :
    ((truthy j = false ∨ typeofIsObject j = false) →
      setContentLanguage lang j st
        = (.error "[Contentstorage] Invalid contentJson might be provided which caused setContentLanguage to fail.", st)) ∧
    (truthy j = true → typeofIsObject j = true →
      setContentLanguage lang j st = (.ok (), ⟨j, some lang⟩)) := by
  constructor
  · rintro (h | h) <;> simp [setContentLanguage, h]
  · intro h1 h2
    simp [setContentLanguage, setContentLanguageTryBody, h1, h2]

theorem setContentLanguage_validation_witness :
    (truthy .null = false ∨ typeofIsObject .null = false) ∧
    setContentLanguage "EN" .null ⟨.obj [("A", .str "v")], some "FR"⟩
      = (.error "[Contentstorage] Invalid contentJson might be provided which caused setContentLanguage to fail.",
         ⟨.obj [("A", .str "v")], some "FR"⟩) ∧
    setContentLanguage "EN" (.obj [("B", .str "w")]) ⟨.obj [("A", .str "v")], some "FR"⟩
      = (.ok (), ⟨.obj [("B", .str "w")], some "EN"⟩) :=
  ⟨Or.inl rfl,
   (setContentLanguage_validation "EN" .null ⟨.obj [("A", .str "v")], some "FR"⟩).1 (Or.inl rfl),
   (setContentLanguage_validation "EN" (.obj [("B", .str "w")]) ⟨.obj [("A", .str "v")], some "FR"⟩).2 rfl rfl⟩

/-- C10: once the validation check passes, `setContentLanguage` always
completes the store update — the active content afterwards is exactly the
supplied object, the guarded `try` body cannot fail (it is two assignments and
a log), so the `catch` branch that resets the store to null is unreachable and
the store is never cleared on a valid input. -/
theorem setContentLanguage_valid_never_resets (lang : String) (j : JsonValue) (st : StoreState)
    (h1 : truthy j = true) (h2 : typeofIsObject j = true) :
    setContentLanguage lang j st = (.ok (), ⟨j, some lang⟩) ∧
    (setContentLanguage lang j st).2.activeContent = j ∧
    (∀ e, setContentLanguageTryBody lang j st ≠ .error e) ∧
    (setContentLanguage lang j st).2 ≠ initialStore := by
  have hmain : setContentLanguage lang j st = (.ok (), ⟨j, some lang⟩) := by
    simp [setContentLanguage, setContentLanguageTryBody, h1, h2]
  refine ⟨hmain, by rw [hmain], fun e h => Except.noConfusion h, ?_⟩
  rw [hmain]
  intro hbad
  exact Option.noConfusion (congrArg StoreState.currentLanguageCode hbad)

/-- C3 amended: with two draft-path invocations for the same key where the
second arrives before the first's debounce timer fires, the first invocation's
network call is never issued and its promise never settles (no continuation of
events resolves or rejects it — its executor was debounce-cleared, and the
benign cancellation-resolution only applies to calls already in flight), while
the second invocation's call is issued and alone updates the store. -/
theorem draft_debounce_supersede (lang : String) (st0 : StoreState) :
    (∀ evts : List DraftEvent,
      statusOf (runDraft lang evts (runDraft lang [.invoke, .invoke] (draftInit st0))) 0
        = some .pending ∧
      0 ∉ (runDraft lang evts (runDraft lang [.invoke, .invoke] (draftInit st0))).issuedCalls) ∧
    (∀ body : JsonValue,
      (runDraft lang [.invoke, .invoke, .timerFire, .netReturn body] (draftInit st0)).issuedCalls
        = [1] ∧
      (runDraft lang [.invoke, .invoke, .timerFire, .netReturn body] (draftInit st0)).store
        = (draftResponseSettle lang body st0).2 ∧
      statusOf (runDraft lang [.invoke, .invoke, .timerFire, .netReturn body] (draftInit st0)) 0
        = some .pending) := by
  constructor
  · intro evts
    have h := runDraft_avoidsFirst lang evts _ (avoidsFirst_after_two_invokes lang st0)
    exact ⟨h.2.2.2.2.2, h.2.2.2.2.1⟩
  · intro body
    cases hset : draftResponseSettle lang body st0 with
    | mk outcome st2 =>
      cases outcome <;>
        refine ⟨?_, ?_, ?_⟩ <;>
          simp [runDraft, draftStep, hset, statusOf, statusIn, setStatus, draftInit]

/-- C3 counterexample: the claim as stated also requires the first
invocation's returned promise to settle (resolve as a benign cancellation).
It never settles: starting from the state after the two invocations, no
sequence of events ever moves promise 0 out of `pending`. -/
theorem draft_first_promise_never_settles :
    ¬ ∃ evts : List DraftEvent,
        statusOf (runDraft "EN" evts (runDraft "EN" [.invoke, .invoke] (draftInit initialStore))) 0
          ≠ some .pending := by
  rintro ⟨evts, h⟩
  exact h (runDraft_avoidsFirst "EN" evts _ (avoidsFirst_after_two_invokes "EN" initialStore)).2.2.2.2.2

/-- A loaded tree whose Variation Node at `"A"` has a default value containing
a placeholder. -/
def demoVariationHiStore : StoreState :=
  ⟨.obj [("A", .obj [("contentstorage_type", .str "variation"),
                     ("data", .obj [("default", .str "Hi \x7bx\x7d")])])], some "EN"⟩

/-- C4 counterexample: the claim states that the `"default"` fallback value is
run through the Variable Interpolator exactly as `getText` would. It is not:
the fallback branch (line 331) returns `data.default` verbatim, ignoring the
supplied variables, while the interpolator applied to the same string would
substitute the placeholder. -/
theorem getVariation_fallback_not_interpolated :
    (getVariation demoVariationHiStore "A" (some "missing") (some [("x", .str "y")])).1
      = ⟨"A", "Hi \x7bx\x7d"⟩ ∧
    (populateTextWithVariables "Hi \x7bx\x7d" [("x", .str "y")] "A").1 = "Hi y" ∧
    (GetVariationReturn.mk "A" "Hi \x7bx\x7d") ≠ ⟨"A", "Hi y"⟩ :=
  ⟨rfl, rfl, by decide⟩

/-- C4 amended: when the requested `variationKey` is absent from `data` but
`data.default` is a string, `getVariation` returns the default string
verbatim, with a fallback warning — the variables mapping, even when
non-empty, is not applied on the fallback path (interpolation only runs when
the requested key itself resolves to a string). -/
theorem getVariation_fallback_verbatim (st : StoreState) (path vk : String) (vs : VarMap)
    (node : JsonValue) (d : String)
    (h1 : truthy st.activeContent = true)
    (h2 : walk (splitPath path) st.activeContent = some node)
    (h3 : isValidVariationNode node = true)
    (h4 : vk ≠ "")
    (h5 : hasProp (propRead node "data") vk = false)
    (h6 : propRead (propRead node "data") "default" = .str d)
    (h7 : vs ≠ []) :
    getVariation st path (some vk) (some vs)
      = (⟨path, d⟩, [.variationFallingBackToDefault path vk]) := by
  have hdef : hasProp (propRead node "data") "default" = true := by
    unfold hasProp
    cases hg : getProp (propRead node "data") "default" with
    | none =>
      exfalso
      have h6x := h6
      unfold propRead at h6x hg
      rw [hg] at h6x
      exact absurd h6x (by simp)
    | some v => simp
  have hvkd : vk ≠ "default" := by
    intro hbad
    rw [hbad] at h5
    rw [h5] at hdef
    exact Bool.noConfusion hdef
  simp [getVariation, variationDefaultStep, h1, h2, h3, h4, h5, h6, hdef, hvkd]

theorem getVariation_fallback_verbatim_witness :
    truthy demoVariationHiStore.activeContent = true ∧
    walk (splitPath "A") demoVariationHiStore.activeContent
      = some (.obj [("contentstorage_type", .str "variation"),
                    ("data", .obj [("default", .str "Hi \x7bx\x7d")])]) ∧
    ("missing" : String) ≠ "" ∧
    ([("x", JsVal.str "y")] : VarMap) ≠ [] ∧
    getVariation demoVariationHiStore "A" (some "missing") (some [("x", .str "y")])
      = (⟨"A", "Hi \x7bx\x7d"⟩, [.variationFallingBackToDefault "A" "missing"]) :=
  ⟨rfl, rfl, by decide, by decide,
   getVariation_fallback_verbatim demoVariationHiStore "A" "missing" [("x", .str "y")]
     (.obj [("contentstorage_type", .str "variation"),
            ("data", .obj [("default", .str "Hi \x7bx\x7d")])])
     "Hi \x7bx\x7d" rfl rfl rfl (by decide) rfl rfl (by decide)⟩

/-- C7: the three accessors are total functions (the embedding never throws);
for an unset store, a path absent from the tree, or a resolved leaf of the
wrong type, each returns its type-specific zero-value default together with a
logged warning. -/
theorem accessors_soft_default (st : StoreState) (path : String) (vk : Option String)
    (vs : Option VarMap) :
    (truthy st.activeContent = false →
      getText st path vs = (⟨path, ""⟩, [.textNotLoaded path]) ∧
      getImage st path = (⟨path, imageDefaultData⟩, [.imageNotLoaded path]) ∧
      getVariation st path vk vs = (⟨path, ""⟩, [.variationNotLoaded path])) ∧
    (truthy st.activeContent = true →
      walk (splitPath path) st.activeContent = none →
      getText st path vs = (⟨path, ""⟩, [.textPathNotFound path]) ∧
      getImage st path = (⟨path, imageDefaultData⟩, [.imagePathNotFound path]) ∧
      getVariation st path vk vs = (⟨path, ""⟩, [.variationPathNotFound path])) ∧
    (∀ leaf : JsonValue, truthy st.activeContent = true →
      walk (splitPath path) st.activeContent = some leaf →
      (typeofIsString leaf = false →
        getText st path vs = (⟨path, ""⟩, [.textNotAString path])) ∧
      (isValidImageNode leaf = false →
        getImage st path = (⟨path, imageDefaultData⟩, [.imageNotValidImage path])) ∧
      (isValidVariationNode leaf = false →
        getVariation st path vk vs = (⟨path, ""⟩, [.variationNotValidObject path]))) := by
  refine ⟨?_, ?_, ?_⟩
  · intro h
    refine ⟨?_, ?_, ?_⟩ <;> simp [getText, getImage, getVariation, h]
  · intro h1 h2
    refine ⟨?_, ?_, ?_⟩ <;> simp [getText, getImage, getVariation, h1, h2]
  · intro leaf h1 h2
    refine ⟨?_, ?_, ?_⟩
    · intro hs
      cases leaf <;> simp_all [getText, typeofIsString]
    · intro him
      simp [getImage, h1, h2, him]
    · intro hv
      simp [getVariation, h1, h2, hv]

theorem accessors_soft_default_witness :
    truthy initialStore.activeContent = false ∧
    getText initialStore "P" none = (⟨"P", ""⟩, [.textNotLoaded "P"]) ∧
    getImage initialStore "P" = (⟨"P", imageDefaultData⟩, [.imageNotLoaded "P"]) ∧
    getVariation initialStore "P" none none = (⟨"P", ""⟩, [.variationNotLoaded "P"]) ∧
    walk (splitPath "missing") (JsonValue.obj [("N", .num 1)]) = none ∧
    getText ⟨.obj [("N", .num 1)], none⟩ "missing" none
      = (⟨"missing", ""⟩, [.textPathNotFound "missing"]) ∧
    walk (splitPath "N") (JsonValue.obj [("N", .num 1)]) = some (.num 1) ∧
    getText ⟨.obj [("N", .num 1)], none⟩ "N" none = (⟨"N", ""⟩, [.textNotAString "N"]) ∧
    getImage ⟨.obj [("N", .num 1)], none⟩ "N"
      = (⟨"N", imageDefaultData⟩, [.imageNotValidImage "N"]) ∧
    getVariation ⟨.obj [("N", .num 1)], none⟩ "N" none none
      = (⟨"N", ""⟩, [.variationNotValidObject "N"]) := by
  have t1 := (accessors_soft_default initialStore "P" none none).1 rfl
  have t2 := (accessors_soft_default ⟨.obj [("N", .num 1)], none⟩ "missing" none none).2.1 rfl rfl
  have t3 := (accessors_soft_default ⟨.obj [("N", .num 1)], none⟩ "N" none none).2.2 (.num 1) rfl rfl
  exact ⟨rfl, t1.1, t1.2.1, t1.2.2, rfl, t2.1, rfl, t3.1 rfl, t3.2.1 rfl, t3.2.2 rfl⟩

/-- C9: the Variable Interpolator replaces every `\x7bidentifier\x7d`
occurrence whose identifier (one or more word characters) is a key of the
variables mapping with the stringified value of that key, leaves placeholders
with absent identifiers textually unchanged (logging a missing-variable
warning), and in particular maps `"Hello, \x7bname\x7d!"` with
`name = "John"` to `"Hello, John!"` and leaves `"Hi \x7bx\x7d"` unchanged
under the empty mapping. The two general conjuncts characterise a leftmost
occurrence, with the recursive tail covering every later occurrence. -/
theorem populateTextWithVariables_spec :
    (∀ (vars : VarMap) (k : String) (pre name post : List Char) (v : JsVal),
      '{' ∉ pre → name ≠ [] → (∀ c ∈ name, wordChar c = true) →
      varLookup vars ⟨name⟩ = some v →
      replaceVars vars k none (pre ++ '{' :: (name ++ '}' :: post))
        = (pre ++ (jsString v).toList ++ (replaceVars vars k none post).1,
           (replaceVars vars k none post).2)) ∧
    (∀ (vars : VarMap) (k : String) (pre name post : List Char),
      '{' ∉ pre → name ≠ [] → (∀ c ∈ name, wordChar c = true) →
      varLookup vars ⟨name⟩ = none →
      replaceVars vars k none (pre ++ '{' :: (name ++ '}' :: post))
        = (pre ++ '{' :: (name ++ '}' :: (replaceVars vars k none post).1),
           Warning.missingVariable ⟨name⟩ k :: (replaceVars vars k none post).2)) ∧
    (populateTextWithVariables "Hello, \x7bname\x7d!" [("name", .str "John")] "greeting").1
      = "Hello, John!" ∧
    (populateTextWithVariables "Hi \x7bx\x7d" [] "greeting").1 = "Hi \x7bx\x7d" := by
  refine ⟨?_, ?_, rfl, rfl⟩
  · intro vars k pre name post v hpre hname hword hlook
    rw [replaceVars_passthrough vars k pre ('{' :: (name ++ '}' :: post)) hpre]
    have hstep : replaceVars vars k none ('{' :: (name ++ '}' :: post))
        = replaceVars vars k (some []) (name ++ '}' :: post) := by
      simp [replaceVars]
    rw [hstep, replaceVars_word vars k post name [] hword (by simpa using hname)]
    simp [hlook]
  · intro vars k pre name post hpre hname hword hlook
    rw [replaceVars_passthrough vars k pre ('{' :: (name ++ '}' :: post)) hpre]
    have hstep : replaceVars vars k none ('{' :: (name ++ '}' :: post))
        = replaceVars vars k (some []) (name ++ '}' :: post) := by
      simp [replaceVars]
    rw [hstep, replaceVars_word vars k post name [] hword (by simpa using hname)]
    simp [hlook]

theorem populateTextWithVariables_spec_witness :
    ('{' ∉ "Hello, ".toList) ∧ "name".toList ≠ [] ∧
    (∀ c ∈ "name".toList, wordChar c = true) ∧
    varLookup [("name", JsVal.str "John")] ⟨"name".toList⟩ = some (.str "John") ∧
    replaceVars [("name", JsVal.str "John")] "greeting" none
        ("Hello, ".toList ++ '{' :: ("name".toList ++ '}' :: "!".toList))
      = ("Hello, ".toList ++ (jsString (.str "John")).toList
           ++ (replaceVars [("name", JsVal.str "John")] "greeting" none "!".toList).1,
         (replaceVars [("name", JsVal.str "John")] "greeting" none "!".toList).2) :=
  ⟨by decide, by decide, by decide, rfl,
   populateTextWithVariables_spec.1 [("name", JsVal.str "John")] "greeting"
     "Hello, ".toList "name".toList "!".toList (.str "John")
     (by decide) (by decide) (by decide) rfl⟩

theorem setContentLanguage_valid_never_resets_witness :
    truthy (.obj [("A", .str "v")]) = true ∧
    typeofIsObject (.obj [("A", .str "v")]) = true ∧
    setContentLanguage "EN" (.obj [("A", .str "v")]) initialStore
      = (.ok (), ⟨.obj [("A", .str "v")], some "EN"⟩) ∧
    (setContentLanguage "EN" (.obj [("A", .str "v")]) initialStore).2 ≠ initialStore :=
  ⟨rfl, rfl,
   (setContentLanguage_valid_never_resets "EN" (.obj [("A", .str "v")]) initialStore rfl rfl).1,
   (setContentLanguage_valid_never_resets "EN" (.obj [("A", .str "v")]) initialStore rfl rfl).2.2.2⟩

end ContentStorage
